import Mathlib

/-!
Verification development for the CS351 cloud-posts Lambda handler
(src/lambda/CS351-Project-Posts/index.mjs).

The handler is shallowly embedded: JavaScript values appearing in the
handler are modelled by `JVal` (with a NaN-capable number type `JSNum`),
the DynamoDB table by a list of `Post` records together with an optional
injected storage fault, and each JavaScript function by a Lean function
with the same branch structure.  Exceptions (storage failures and
body-parse failures) are modelled with `Except`.
-/

namespace CloudPosts

/-- A JavaScript number restricted to the integer fragment this handler
manipulates (ids, timestamps, vote counts, ttls), plus NaN. -/
inductive JSNum where
  | nan : JSNum
  | int : Int → JSNum
deriving DecidableEq

/-- JavaScript addition on numbers: NaN propagates. -/
def JSNum.add : JSNum → JSNum → JSNum
  | .int a, .int b => .int (a + b)
  | _, _ => .nan

/-- JavaScript subtraction on numbers: NaN propagates. -/
def JSNum.sub : JSNum → JSNum → JSNum
  | .int a, .int b => .int (a - b)
  | _, _ => .nan

/-- Strict equality of two JavaScript numbers; NaN is equal to nothing. -/
def jsNumEq : JSNum → JSNum → Bool
  | .int a, .int b => a == b
  | _, _ => false

/-- A JavaScript value as stored in a record field or supplied in a JSON
body: null, a boolean, a number or a string. -/
inductive JVal where
  | null : JVal
  | bool : Bool → JVal
  | num : JSNum → JVal
  | str : String → JVal
deriving DecidableEq

/-- JavaScript strict equality between two values. -/
def jsStrictEq : JVal → JVal → Bool
  | .null, .null => true
  | .bool a, .bool b => a == b
  | .num a, .num b => jsNumEq a b
  | .str a, .str b => a == b
  | _, _ => false

/-- Strict equality between a value and a number, as in
`item.id === Number(queryStringParameters.before)`. -/
def jsStrictEqNum (v : JVal) (n : JSNum) : Bool :=
  jsStrictEq v (.num n)

/-- Interprets a nonempty list of characters as a decimal natural number,
or none when some character is not a decimal digit. -/
def digitsToNat : List Char → Option Nat
  | [] => none
  | cs =>
    if cs.all Char.isDigit then
      some (cs.foldl (fun a c => a * 10 + (c.toNat - 48)) 0)
    else none

/-- Strips leading and trailing whitespace from a character list, as the
Number coercion does before reading the literal. -/
def trimChars (cs : List Char) : List Char :=
  ((cs.dropWhile Char.isWhitespace).reverse.dropWhile Char.isWhitespace).reverse

/-- The JavaScript builtin coercion Number(string), restricted to the
fragment exercised by the handler: surrounding whitespace is trimmed, the
empty string coerces to 0, and an optionally signed decimal integer
literal coerces to its value.  Other syntaxes (fractions, exponents, hex
literals) are outside the model and map to NaN. -/
def parseNumber (s : String) : JSNum :=
  let t := trimChars s.data
  if t = [] then .int 0
  else
    match t with
    | '+' :: rest =>
      match digitsToNat rest with
      | some n => .int (n : Int)
      | none => .nan
    | '-' :: rest =>
      match digitsToNat rest with
      | some n => .int (-(n : Int))
      | none => .nan
    | ds =>
      match digitsToNat ds with
      | some n => .int (n : Int)
      | none => .nan

/-- The JavaScript builtin coercion ToNumber applied to a value, as used
by the subtraction inside the sort comparator. -/
def JVal.toNum : JVal → JSNum
  | .null => .int 0
  | .bool b => .int (if b then 1 else 0)
  | .num v => v
  | .str s => parseNumber s

/-- Truthiness of an optional query-parameter string: absent and the
empty string are falsy, every other string is truthy. -/
def truthy : Option String → Bool
  | none => false
  | some s => !(s == "")

/-- A post record, the sole entity of the table.  Fields hold arbitrary
JavaScript values because a PATCH body may store any JSON value into a
field. -/
structure Post where
  id : JVal
  content : JVal
  timestamp : JVal
  votes : JVal
  ttl : JVal
deriving DecidableEq

/-- A JavaScript error object; name, message and stack are modelled as
its own properties, per the specification of the 512 response. -/
structure JSError where
  name : String
  message : String
  stack : String
deriving DecidableEq

/-- GET query parameters recognized by the handler; a missing key is
`none` (JavaScript undefined). -/
structure QueryParams where
  latest : Option String := none
  before : Option String := none
  id : Option String := none
  count : Option String := none
deriving DecidableEq

/-- The parsed JSON request body, restricted to the four own properties
the handler ever reads; `some v` means the property is an own property
with value `v` (possibly null), `none` means it is absent. -/
structure BodyObj where
  content : Option JVal := none
  timestamp : Option JVal := none
  votes : Option JVal := none
  ttl : Option JVal := none
deriving DecidableEq

/-- An inbound request.  `body` is the outcome of the platform builtin
JSON.parse on the raw body string: either the parsed object or the
raised parse error (the raw string itself is outside the model). -/
structure Event where
  httpMethod : String
  queryStringParameters : Option QueryParams := none
  body : Except JSError BodyObj := .ok {}

/-- An outbound response.  `body := none` models the JavaScript value
undefined, which JSON.stringify returns when applied to undefined. -/
structure Response where
  statusCode : Int
  headers : List (String × String) := []
  body : Option String := none
deriving DecidableEq

/-- The external table state: the stored records in scan order, plus an
optional injected storage-layer fault that makes every storage call
raise. -/
structure DB where
  items : List Post
  fault : Option JSError := none
deriving DecidableEq

/-! ### JSON serialization (the platform builtin JSON.stringify,
restricted to the shapes this handler serializes; control characters are
not escaped in the model) -/

/-- Escapes one character for a JSON string literal. -/
def escChar : Char → String
  | '"' => "\\\""
  | '\\' => "\\\\"
  | c => String.singleton c

/-- Escapes a string for inclusion in a JSON string literal. -/
def escapeJSON (s : String) : String :=
  s.data.foldl (fun acc c => acc ++ escChar c) ""

/-- A JSON string literal. -/
def quoteJSON (s : String) : String :=
  "\"" ++ escapeJSON s ++ "\""

/-- Serializes a JavaScript number; JSON.stringify renders NaN as null. -/
def JSNum.toJSON : JSNum → String
  | .nan => "null"
  | .int n => toString n

/-- Serializes a JavaScript value. -/
def JVal.toJSON : JVal → String
  | .null => "null"
  | .bool b => if b then "true" else "false"
  | .num v => v.toJSON
  | .str s => quoteJSON s

/-- Serializes a post record, with keys in construction order. -/
def postToJSON (p : Post) : String :=
  "\x7b\"id\":" ++ p.id.toJSON
    ++ ",\"content\":" ++ p.content.toJSON
    ++ ",\"timestamp\":" ++ p.timestamp.toJSON
    ++ ",\"votes\":" ++ p.votes.toJSON
    ++ ",\"ttl\":" ++ p.ttl.toJSON ++ "\x7d"

/-- Serializes an array of post records. -/
def postsToJSON (l : List Post) : String :=
  "[" ++ String.intercalate "," (l.map postToJSON) ++ "]"

/-- The body of an error response, JSON.stringify of an object with one
`error` property. -/
def jsonError (msg : String) : String :=
  "\x7b\"error\":" ++ quoteJSON msg ++ "\x7d"

/-- The body of a success acknowledgement. -/
def successBody : String :=
  "\x7b\"success\":true\x7d"

/-- JSON.stringify of an error with its own properties listed by
Object.getOwnPropertyNames: name, message and stack. -/
def serializeError (e : JSError) : String :=
  "\x7b\"name\":" ++ quoteJSON e.name
    ++ ",\"message\":" ++ quoteJSON e.message
    ++ ",\"stack\":" ++ quoteJSON e.stack ++ "\x7d"

/-- Serializes one present query parameter as a JSON object member. -/
def optFieldJSON (k : String) (v : Option String) : List String :=
  match v with
  | none => []
  | some s => [quoteJSON k ++ ":" ++ quoteJSON s]

/-- Serializes the query parameters of an echoed event. -/
def qspToJSON : Option QueryParams → String
  | none => "null"
  | some q =>
    "\x7b" ++ String.intercalate ","
      (optFieldJSON "latest" q.latest ++ optFieldJSON "before" q.before
        ++ optFieldJSON "id" q.id ++ optFieldJSON "count" q.count) ++ "\x7d"

/-- Serializes an echoed event, as in the unsupported-method response;
the raw body string is outside the model, so only the method and query
parameters are rendered. -/
def eventToJSON (ev : Event) : String :=
  "\x7b\"httpMethod\":" ++ quoteJSON ev.httpMethod
    ++ ",\"queryStringParameters\":" ++ qspToJSON ev.queryStringParameters
    ++ "\x7d"

/-! ### The storage collaborator.
Modelled from the spec: the managed key-value store itself is not part
of the repository; section 6 of the specification describes the consumed
operations scan, get, put, update and delete, which are modelled here
over the list of stored records, with the injected fault standing for a
storage-layer failure. -/

/-- Modelled from the spec: scan(table) returns all records. -/
def dynamoScan (db : DB) : Except JSError (List Post) :=
  match db.fault with
  | some e => .error e
  | none => .ok db.items

/-- Modelled from the spec: get(table, key) returns one record or
empty. -/
def dynamoGet (db : DB) (key : JSNum) : Except JSError (Option Post) :=
  match db.fault with
  | some e => .error e
  | none => .ok (db.items.find? (fun p => jsStrictEqNum p.id key))

/-- Modelled from the spec: put(table, record) writes the record,
replacing any record with the same key. -/
def dynamoPut (db : DB) (item : Post) : Except JSError DB :=
  match db.fault with
  | some e => .error e
  | none =>
    .ok { db with
          items := db.items.filter (fun p => !(jsStrictEq p.id item.id)) ++ [item] }

/-- Applies one placeholder binding of the update expression built by
handlePatch to a record. -/
def applyAttr (p : Post) : String × JVal → Post
  | (k, v) =>
    if k = ":c" then { p with content := v }
    else if k = ":t" then { p with timestamp := v }
    else if k = ":v" then { p with votes := v }
    else if k = ":ttl" then { p with ttl := v }
    else p

/-- Applies the attribute values of an update request to a record. -/
def applyUpdate (vals : List (String × JVal)) (p : Post) : Post :=
  vals.foldl applyAttr p

/-- Modelled from the spec: update(table, key, field-set-expression,
values) applies the field assignments to the record with that key and
returns the updated record; the expression string is carried but the
assignments are interpreted through the placeholder bindings.  For an
absent key no record is returned. -/
def dynamoUpdate (db : DB) (key : JSNum) (_expr : String)
    (vals : List (String × JVal)) : Except JSError (Option Post × DB) :=
  match db.fault with
  | some e => .error e
  | none =>
    match db.items.find? (fun p => jsStrictEqNum p.id key) with
    | none => .ok (none, db)
    | some _ =>
      let items2 := db.items.map
        (fun p => if jsStrictEqNum p.id key then applyUpdate vals p else p)
      .ok (items2.find? (fun p => jsStrictEqNum p.id key), { db with items := items2 })

/-- Modelled from the spec: delete(table, key) removes the record with
that key, with no error if it is absent. -/
def dynamoDelete (db : DB) (key : JSNum) : Except JSError DB :=
  match db.fault with
  | some e => .error e
  | none =>
    .ok { db with items := db.items.filter (fun p => !(jsStrictEqNum p.id key)) }

/-! ### GET -/

/-- The sort comparator `(a, b) => b.timestamp - a.timestamp`; a NaN
comparator result is treated as 0, as the sort algorithm does. -/
def cmpTs (a b : Post) : Int :=
  match JSNum.sub b.timestamp.toNum a.timestamp.toNum with
  | .nan => 0
  | .int n => n

/-- Inserts a record into an already comparator-sorted list, before the
first element it does not have to follow; ties keep the earlier element
first, matching the stability of Array.prototype.sort. -/
def insertPost (x : Post) : List Post → List Post
  | [] => [x]
  | y :: ys => if cmpTs x y ≤ 0 then x :: y :: ys else y :: insertPost x ys

/-- `items.sort((a, b) => b.timestamp - a.timestamp)`: a stable sort by
descending timestamp. -/
def sortByTimestampDesc : List Post → List Post
  | [] => []
  | x :: xs => insertPost x (sortByTimestampDesc xs)

/-- ToIntegerOrInfinity on the modelled numbers, as used by
Array.prototype.slice: NaN becomes 0. -/
def toIntOrZero : JSNum → Int
  | .nan => 0
  | .int n => n

/-- Clamps a slice index into [0, len], counting from the end when
negative. -/
def clampIndex (len : Nat) (n : Int) : Nat :=
  if n < 0 then ((len : Int) + n).toNat
  else min n.toNat len

/-- `l.slice(start, fin)` for a nonnegative start and a possibly-NaN
end index. -/
def jsSlice (l : List Post) (start : Nat) (fin : JSNum) : List Post :=
  (l.take (clampIndex l.length (toIntOrZero fin))).drop (min start l.length)

/-- `Number(queryStringParameters.count ?? DEFAULT_COUNT)` with
DEFAULT_COUNT = 1. -/
def countNum (q : QueryParams) : JSNum :=
  match q.count with
  | none => .int 1
  | some s => parseNumber s

/-- The latest-mode branch of handleGet: scan, sort descending, return
the first count records. -/
def latestMode (q : QueryParams) (db : DB) : Except JSError (Response × DB) :=
  match dynamoScan db with
  | .error e => .error e
  | .ok items =>
    let sorted := sortByTimestampDesc items
    .ok ({ statusCode := 200,
           body := some (postsToJSON (jsSlice sorted 0 (countNum q))) }, db)

/-- The before-mode branch of handleGet: scan, sort descending, locate
the record whose id strictly equals the coerced parameter, and return
the count records after it; 513 when no record matches. -/
def beforeMode (q : QueryParams) (db : DB) : Except JSError (Response × DB) :=
  match dynamoScan db with
  | .error e => .error e
  | .ok items =>
    let sorted := sortByTimestampDesc items
    let key := parseNumber (q.before.getD "")
    match sorted.findIdx? (fun item => jsStrictEqNum item.id key) with
    | none =>
      .ok ({ statusCode := 513,
             body := some (jsonError ("No item found by id " ++ q.before.getD "")) }, db)
    | some idIndex =>
      let startIndex := idIndex + 1
      .ok ({ statusCode := 200,
             body := some (postsToJSON
               (jsSlice sorted startIndex
                 (JSNum.add (.int (startIndex : Int)) (countNum q)))) }, db)

/-- The by-id branch of handleGet: one storage get; the record (or
undefined) is serialized directly. -/
def byIdMode (q : QueryParams) (db : DB) : Except JSError (Response × DB) :=
  match dynamoGet db (parseNumber (q.id.getD "")) with
  | .error e => .error e
  | .ok item =>
    .ok ({ statusCode := 200, body := item.map postToJSON }, db)

/-- The list-all branch of handleGet: scan, sort descending, return
everything. -/
def listAllMode (db : DB) : Except JSError (Response × DB) :=
  match dynamoScan db with
  | .error e => .error e
  | .ok items =>
    .ok ({ statusCode := 200,
           body := some (postsToJSON (sortByTimestampDesc items)) }, db)

/-- handleGet: the if-chain of the source, guarded by the truthiness of
each query parameter in order latest, before, id. -/
def handleGet (ev : Event) (db : DB) : Except JSError (Response × DB) :=
  match ev.queryStringParameters with
  | none => listAllMode db
  | some q =>
    if truthy q.latest then latestMode q db
    else if truthy q.before then beforeMode q db
    else if truthy q.id then byIdMode q db
    else listAllMode db

/-! ### PUT -/

/-- The nullish-coalescing operator `??` applied to a possibly-absent
body property: null and undefined fall back to the default. -/
def nullishOr (v : Option JVal) (d : JVal) : JVal :=
  match v with
  | none => d
  | some .null => d
  | some x => x

/-- RETENTION_PERIOD = 60 * 60 * 24 * 30 seconds (30 days). -/
def RETENTION_PERIOD : Int := 60 * 60 * 24 * 30

/-- The new post handlePut constructs: the clock is modelled as a single
instant `now` (milliseconds since epoch) for the whole invocation. -/
def newPostOf (now : Int) (requestJSON : BodyObj) : Post :=
  { id := .num (.int now),
    content := nullishOr requestJSON.content (.str ""),
    timestamp := nullishOr requestJSON.timestamp (.num (.int now)),
    votes := nullishOr requestJSON.votes (.num (.int 0)),
    ttl := .num (.int (Int.fdiv now 1000 + RETENTION_PERIOD)) }

/-- handlePut: parse the body, build the new post with defaults, write
it, then read it back by id and return the freshly-read record. -/
def handlePut (now : Int) (ev : Event) (db : DB) : Except JSError (Response × DB) :=
  match ev.body with
  | .error e => .error e
  | .ok requestJSON =>
    let newPost := newPostOf now requestJSON
    match dynamoPut db newPost with
    | .error e => .error e
    | .ok db2 =>
      match dynamoGet db2 (.int now) with
      | .error e => .error e
      | .ok item =>
        .ok ({ statusCode := 200, body := item.map postToJSON }, db2)

/-! ### PATCH -/

/-- Builds the update expression and attribute values from the parsed
body, one clause per own property among content, timestamp, votes and
ttl. -/
def buildUpdate (r : BodyObj) : String × List (String × JVal) :=
  let acc0 : String × List (String × JVal) := ("set", [])
  let acc1 := match r.content with
    | some v => (acc0.1 ++ " content = :c,", acc0.2 ++ [(":c", v)])
    | none => acc0
  let acc2 := match r.timestamp with
    | some v => (acc1.1 ++ " timestamp = :t,", acc1.2 ++ [(":t", v)])
    | none => acc1
  let acc3 := match r.votes with
    | some v => (acc2.1 ++ " votes = :v,", acc2.2 ++ [(":v", v)])
    | none => acc2
  match r.ttl with
  | some v => (acc3.1 ++ " ttl = :ttl,", acc3.2 ++ [(":ttl", v)])
  | none => acc3

/-- handlePatch: requires a truthy id parameter, builds the update from
the own properties of the body, returns 400 when no recognized field is
present, and otherwise issues one update (with the trailing comma
removed from the expression) and returns the updated record. -/
def handlePatch (ev : Event) (db : DB) : Except JSError (Response × DB) :=
  match ev.queryStringParameters with
  | none =>
    .ok ({ statusCode := 400, body := some (jsonError "Missing post ID") }, db)
  | some q =>
    if truthy q.id then
      match ev.body with
      | .error e => .error e
      | .ok requestJSON =>
        let built := buildUpdate requestJSON
        if built.1 = "set" then
          .ok ({ statusCode := 400, body := some (jsonError "No fields to update") }, db)
        else
          match dynamoUpdate db (parseNumber (q.id.getD "")) (built.1.dropRight 1) built.2 with
          | .error e => .error e
          | .ok (attrs, db2) =>
            .ok ({ statusCode := 200, body := attrs.map postToJSON }, db2)
    else
      .ok ({ statusCode := 400, body := some (jsonError "Missing post ID") }, db)

/-! ### DELETE, OPTIONS, dispatch -/

/-- handleDelete: requires a truthy id parameter; deletes unconditionally
and acknowledges. -/
def handleDelete (ev : Event) (db : DB) : Except JSError (Response × DB) :=
  match ev.queryStringParameters with
  | none =>
    .ok ({ statusCode := 400, body := some (jsonError "Missing post ID") }, db)
  | some q =>
    if truthy q.id then
      match dynamoDelete db (parseNumber (q.id.getD "")) with
      | .error e => .error e
      | .ok db2 =>
        .ok ({ statusCode := 200, body := some successBody }, db2)
    else
      .ok ({ statusCode := 400, body := some (jsonError "Missing post ID") }, db)

/-- handleOptions: the fixed CORS preflight response. -/
def handleOptions (_ev : Event) (db : DB) : Except JSError (Response × DB) :=
  .ok ({ statusCode := 200,
         headers := [("Access-Control-Allow-Origin", "*"),
                     ("Access-Control-Allow-Methods", "GET,PUT,PATCH,DELETE,OPTIONS")],
         body := some successBody }, db)

/-- The body of the unsupported-method response: the error message and
the echoed event. -/
def unsupportedBody (ev : Event) : String :=
  "\x7b\"error\":" ++ quoteJSON ("Unsupported method " ++ ev.httpMethod)
    ++ ",\"event\":" ++ eventToJSON ev ++ "\x7d"

/-- The switch on httpMethod inside the handler's try block. -/
def dispatch (now : Int) (ev : Event) (db : DB) : Except JSError (Response × DB) :=
  match ev.httpMethod with
  | "GET" => handleGet ev db
  | "PUT" => handlePut now ev db
  | "PATCH" => handlePatch ev db
  | "DELETE" => handleDelete ev db
  | "OPTIONS" => handleOptions ev db
  | _ => .ok ({ statusCode := 400, body := some (unsupportedBody ev) }, db)

/-- The response the catch block would produce if an error ever reached
it: status 512 with the serialized error. -/
def catchResponse (e : JSError) : Response :=
  { statusCode := 512, body := some (serializeError e) }

/-- The exported handler.  The try/catch wraps only the synchronous part
of the body (the property read and the switch): every case returns the
dispatched async operation's promise without awaiting it, so an error
raised by the operation (a storage failure or a body-parse exception)
rejects that promise after the try block has already exited, bypassing
the catch; the invocation's promise then rejects with the raw error and
no response is produced.  The model therefore returns the dispatched
outcome unchanged, a rejection surfacing as `.error`; for the modelled
well-formed events nothing in the synchronous part can throw, so the
catch branch (`catchResponse`) is unreachable. -/
def handler (now : Int) (ev : Event) (db : DB) : Except JSError (Response × DB) :=
  dispatch now ev db

end CloudPosts

namespace CloudPosts

/-! ### Shared lemmas about the embedded operations -/

theorem insertPost_perm (x : Post) (l : List Post) :
    (insertPost x l).Perm (x :: l) := by
  induction l with
  | nil => simp [insertPost]
  | cons y ys ih =>
    by_cases h : cmpTs x y ≤ 0
    · simp [insertPost, h]
    · simp only [insertPost, if_neg h]
      exact (ih.cons y).trans (List.Perm.swap x y ys)

theorem sortByTimestampDesc_perm (l : List Post) :
    (sortByTimestampDesc l).Perm l := by
  induction l with
  | nil => simp [sortByTimestampDesc]
  | cons x xs ih =>
    exact (insertPost_perm x (sortByTimestampDesc xs)).trans (ih.cons x)

/-- The numeric value of a record's timestamp under the coercion the sort
comparator applies. -/
def tsI (p : Post) : Int := toIntOrZero p.timestamp.toNum

/-- A record whose timestamp coerces to an actual integer (not NaN). -/
def intTs (p : Post) : Prop := ∃ t : Int, p.timestamp.toNum = JSNum.int t

theorem cmpTs_le_iff {a b : Post} (ha : intTs a) (hb : intTs b) :
    cmpTs a b ≤ 0 ↔ tsI b ≤ tsI a := by
  obtain ⟨ta, hta⟩ := ha
  obtain ⟨tb, htb⟩ := hb
  simp [cmpTs, JSNum.sub, hta, htb, tsI, toIntOrZero]

theorem cmpTs_pos_iff {a b : Post} (ha : intTs a) (hb : intTs b) :
    0 < cmpTs a b ↔ tsI a < tsI b := by
  obtain ⟨ta, hta⟩ := ha
  obtain ⟨tb, htb⟩ := hb
  simp [cmpTs, JSNum.sub, hta, htb, tsI, toIntOrZero]

theorem mem_insertPost {z x : Post} {l : List Post} :
    z ∈ insertPost x l ↔ z = x ∨ z ∈ l :=
  ((insertPost_perm x l).mem_iff).trans (by simp)

theorem insertPost_pairwise {x : Post} {l : List Post}
    (hx : intTs x) (hl : ∀ p ∈ l, intTs p)
    (h : l.Pairwise (fun a b => tsI b ≤ tsI a)) :
    (insertPost x l).Pairwise (fun a b => tsI b ≤ tsI a) := by
  induction l with
  | nil => simp [insertPost]
  | cons y ys ih =>
    have hy : intTs y := hl y (by simp)
    have hys : ∀ p ∈ ys, intTs p := fun p hp => hl p (by simp [hp])
    rcases List.pairwise_cons.mp h with ⟨hyall, hys_pw⟩
    by_cases hc : cmpTs x y ≤ 0
    · have hxy : tsI y ≤ tsI x := (cmpTs_le_iff hx hy).mp hc
      simp only [insertPost, if_pos hc]
      refine List.pairwise_cons.mpr ⟨?_, h⟩
      intro z hz
      rcases List.mem_cons.mp hz with rfl | hz
      · exact hxy
      · exact le_trans (hyall z hz) hxy
    · have hyx : tsI x ≤ tsI y := by
        have : 0 < cmpTs x y := lt_of_not_le hc
        exact le_of_lt ((cmpTs_pos_iff hx hy).mp this)
      simp only [insertPost, if_neg hc]
      refine List.pairwise_cons.mpr ⟨?_, ih hys hys_pw⟩
      intro z hz
      rcases mem_insertPost.mp hz with rfl | hz
      · exact hyx
      · exact hyall z hz

theorem sortByTimestampDesc_pairwise {l : List Post}
    (hl : ∀ p ∈ l, intTs p) :
    (sortByTimestampDesc l).Pairwise (fun a b => tsI b ≤ tsI a) := by
  induction l with
  | nil => simp [sortByTimestampDesc]
  | cons x xs ih =>
    have hx : intTs x := hl x (by simp)
    have hxs : ∀ p ∈ xs, intTs p := fun p hp => hl p (by simp [hp])
    have hmem : ∀ p ∈ sortByTimestampDesc xs, intTs p := fun p hp =>
      hxs p ((sortByTimestampDesc_perm xs).mem_iff.mp hp)
    exact insertPost_pairwise hx hmem (ih hxs)

theorem find?_after_put (items : List Post) (x : Post) (n : Int)
    (hid : x.id = JVal.num (.int n)) :
    ((items.filter fun p => !(jsStrictEq p.id x.id)) ++ [x]).find?
      (fun p => jsStrictEqNum p.id (.int n)) = some x := by
  rw [List.find?_append]
  have h1 : (items.filter fun p => !(jsStrictEq p.id x.id)).find?
      (fun p => jsStrictEqNum p.id (.int n)) = none := by
    rw [List.find?_eq_none]
    intro p hp
    have hmem := List.of_mem_filter hp
    rw [hid] at hmem
    simp only [jsStrictEqNum, Bool.not_eq_true]
    simpa using hmem
  rw [h1]
  simp [jsStrictEqNum, hid, jsStrictEq, jsNumEq]

theorem jsSlice_nan (l : List Post) (s : Nat) : jsSlice l s .nan = [] := by
  simp [jsSlice, toIntOrZero, clampIndex]

theorem take_min_length (l : List Post) (k : Nat) :
    l.take (min k l.length) = l.take k := by
  rcases Nat.le_total k l.length with h | h
  · rw [Nat.min_eq_left h]
  · rw [Nat.min_eq_right h, List.take_length, List.take_of_length_le h]

theorem drop_min_length (l : List Post) (k : Nat) :
    l.drop (min k l.length) = l.drop k := by
  rcases Nat.le_total k l.length with h | h
  · rw [Nat.min_eq_left h]
  · rw [Nat.min_eq_right h, List.drop_length, List.drop_of_length_le h]

theorem jsSlice_int (l : List Post) (s c : Nat) :
    jsSlice l s (.int ((s : Int) + (c : Int))) = (l.drop s).take c := by
  have hcast : ((s : Int) + (c : Int)) = ((s + c : Nat) : Int) := by push_cast; ring
  have hnonneg : ¬ (((s + c : Nat) : Int) < 0) :=
    not_lt.mpr (Int.natCast_nonneg _)
  simp only [jsSlice, toIntOrZero, hcast, clampIndex, if_neg hnonneg, Int.toNat_natCast]
  rw [take_min_length]
  have hdrop : (l.take (s + c)).drop (min s l.length) = (l.take (s + c)).drop s := by
    rcases Nat.le_total s l.length with h | h
    · rw [Nat.min_eq_left h]
    · rw [Nat.min_eq_right h]
      have h1 : (l.take (s + c)).length ≤ l.length := by
        simp [List.length_take]
      rw [List.drop_of_length_le h1, List.drop_of_length_le (le_trans h1 h)]
  rw [hdrop]
  exact (List.take_drop s c l).symm

end CloudPosts

namespace CloudPosts

/-! ### Claim theorems -/

/-- A body-parse failure used as the C1 failing input. -/
def errParse : JSError := ⟨"SyntaxError", "Unexpected token", "stack"⟩

/-- A storage-layer failure used as the C1 failing input. -/
def errStore : JSError := ⟨"Err", "connection lost", "stack"⟩

/-- The C1 failing input: a PUT whose body fails to parse. -/
def evC1 : Event := { httpMethod := "PUT", body := .error errParse }

/-- C1 (code bug): a dispatched operation's error is not turned into a
512 response.  Because each switch case returns the async operation's
promise without awaiting it, the rejection bypasses the catch: the
invocation rejects with the raw error — shown here for a PUT whose body
fails to parse and for a GET hitting a storage fault — and in particular
the 512 catch response is never returned. -/
theorem handler_error_bypasses_catch :
    handler 0 evC1 ⟨[], none⟩ = .error errParse
    ∧ handler 0 { httpMethod := "GET" } ⟨[], some errStore⟩ = .error errStore
    ∧ ∀ db2 : DB, handler 0 evC1 ⟨[], none⟩ ≠ .ok (catchResponse errParse, db2) := by
  refine ⟨rfl, rfl, ?_⟩
  intro db2 h
  rw [show handler 0 evC1 ⟨[], none⟩ = .error errParse from rfl] at h
  exact Except.noConfusion h

/-- C4: a PATCH with a truthy id parameter whose parsed body has none of
the four recognized fields as an own property is answered with 400 and
the body naming "No fields to update", and the stored table is returned
unchanged (no storage write). -/
theorem patch_no_fields_400 (now : Int) (db : DB) (q : QueryParams) (r : BodyObj)
    (hq : truthy q.id = true)
    (hc : r.content = none) (ht : r.timestamp = none)
    (hv : r.votes = none) (htl : r.ttl = none) :
    handler now { httpMethod := "PATCH", queryStringParameters := some q, body := .ok r } db
      = .ok ({ statusCode := 400, headers := [],
               body := some (jsonError "No fields to update") }, db) := by
  simp [handler, dispatch, handlePatch, hq, buildUpdate, hc, ht, hv, htl]

/-- Concrete query parameters for the C4 witness. -/
def qW4 : QueryParams := { id := some "7" }

/-- Witness for C4: PATCH with id=7 and body with no recognized fields
gives 400 and leaves the table unchanged. -/
theorem patch_no_fields_400_witness :
    handler 0 { httpMethod := "PATCH", queryStringParameters := some qW4, body := .ok {} } ⟨[], none⟩
      = .ok ({ statusCode := 400, headers := [],
               body := some (jsonError "No fields to update") }, ⟨[], none⟩) :=
  patch_no_fields_400 0 ⟨[], none⟩ qW4 {} rfl rfl rfl rfl rfl

/-- C5: a PUT with body without own properties creates and persists the
record with id and timestamp equal to the creation instant in
milliseconds, empty content, zero votes and ttl equal to the creation
instant in seconds plus 2592000, and returns exactly the record read
back from storage with status 200. -/
theorem put_empty_body_defaults (now : Int) (db : DB) (hf : db.fault = none) :
    (handler now { httpMethod := "PUT", body := .ok {} } db).map Prod.fst
      = .ok { statusCode := 200, headers := [],
              body := some (postToJSON (newPostOf now {})) }
    ∧ (handler now { httpMethod := "PUT", body := .ok {} } db).map
        (fun x => x.2.items.find? (fun p => jsStrictEqNum p.id (.int now)))
      = .ok (some (newPostOf now {}))
    ∧ newPostOf now {} = { id := .num (.int now), content := .str "",
                           timestamp := .num (.int now), votes := .num (.int 0),
                           ttl := .num (.int (Int.fdiv now 1000 + 2592000)) } := by
  have hfind := find?_after_put db.items (newPostOf now {}) now rfl
  refine ⟨?_, ?_, ?_⟩
  · simp only [handler, dispatch, handlePut, dynamoPut, dynamoGet, hf]
    rw [hfind]
    rfl
  · simp only [handler, dispatch, handlePut, dynamoPut, dynamoGet, hf, Except.map]
    rw [hfind]
  · simp [newPostOf, nullishOr, RETENTION_PERIOD]

/-- Witness for C5 at a concrete creation instant over an empty table. -/
theorem put_empty_body_defaults_witness :
    (handler 1700000000123 { httpMethod := "PUT", body := .ok {} } ⟨[], none⟩).map Prod.fst
      = .ok { statusCode := 200, headers := [],
              body := some (postToJSON (newPostOf 1700000000123 {})) }
    ∧ (handler 1700000000123 { httpMethod := "PUT", body := .ok {} } ⟨[], none⟩).map
        (fun x => x.2.items.find? (fun p => jsStrictEqNum p.id (.int 1700000000123)))
      = .ok (some (newPostOf 1700000000123 {}))
    ∧ newPostOf 1700000000123 {} = { id := .num (.int 1700000000123), content := .str "",
                                     timestamp := .num (.int 1700000000123),
                                     votes := .num (.int 0),
                                     ttl := .num (.int (Int.fdiv 1700000000123 1000 + 2592000)) } :=
  put_empty_body_defaults 1700000000123 ⟨[], none⟩ rfl

/-- C6: whatever the parsed PUT body supplies (a ttl value included),
the persisted record's ttl is the creation instant in seconds plus
RETENTION_PERIOD = 2592000 seconds, and the 200 response returns the
freshly-read record. -/
theorem put_ttl_fixed (now : Int) (r : BodyObj) (db : DB) (hf : db.fault = none) :
    (handler now { httpMethod := "PUT", body := .ok r } db).map
        (fun x => (x.2.items.find? (fun p => jsStrictEqNum p.id (.int now))).map Post.ttl)
      = .ok (some (.num (.int (Int.fdiv now 1000 + RETENTION_PERIOD))))
    ∧ (handler now { httpMethod := "PUT", body := .ok r } db).map (fun x => x.1.statusCode)
      = .ok 200
    ∧ (handler now { httpMethod := "PUT", body := .ok r } db).map (fun x => x.1.body)
      = (handler now { httpMethod := "PUT", body := .ok r } db).map
          (fun x => (x.2.items.find? (fun p => jsStrictEqNum p.id (.int now))).map postToJSON) := by
  have hfind := find?_after_put db.items (newPostOf now r) now rfl
  refine ⟨?_, ?_, ?_⟩
  · simp only [handler, dispatch, handlePut, dynamoPut, dynamoGet, hf, Except.map]
    rw [hfind]
    rfl
  · simp only [handler, dispatch, handlePut, dynamoPut, dynamoGet, hf]
    rfl
  · simp only [handler, dispatch, handlePut, dynamoPut, dynamoGet, hf, Except.map]

/-- The C6 witness body: it explicitly supplies a ttl value, which the
creation path must ignore. -/
def bodyW6 : BodyObj := { ttl := some (.num (.int 5)) }

/-- The C6 witness event. -/
def evW6 : Event := { httpMethod := "PUT", body := .ok bodyW6 }

/-- Witness for C6: a PUT body supplying ttl 5 still yields a stored ttl
of creation instant in seconds plus 2592000. -/
theorem put_ttl_fixed_witness :
    (handler 1700000000123 evW6 ⟨[], none⟩).map
        (fun x => (x.2.items.find?
          (fun p => jsStrictEqNum p.id (.int 1700000000123))).map Post.ttl)
      = .ok (some (.num (.int (Int.fdiv 1700000000123 1000 + RETENTION_PERIOD))))
    ∧ (handler 1700000000123 evW6 ⟨[], none⟩).map (fun x => x.1.statusCode) = .ok 200
    ∧ (handler 1700000000123 evW6 ⟨[], none⟩).map (fun x => x.1.body)
      = (handler 1700000000123 evW6 ⟨[], none⟩).map
          (fun x => (x.2.items.find?
            (fun p => jsStrictEqNum p.id (.int 1700000000123))).map postToJSON) :=
  put_ttl_fixed 1700000000123 bodyW6 ⟨[], none⟩ rfl

end CloudPosts

namespace CloudPosts

/-- C3: for a PATCH body, each of the four placeholder bindings is part
of the issued update values if and only if the corresponding field is an
own property of the parsed body (whatever its value), and applying the
update to a stored record sets exactly the named fields and leaves the
others untouched. -/
theorem patch_field_presence (r : BodyObj) (p : Post) :
    (∀ v, ((":c", v) ∈ (buildUpdate r).2 ↔ r.content = some v))
    ∧ (∀ v, ((":t", v) ∈ (buildUpdate r).2 ↔ r.timestamp = some v))
    ∧ (∀ v, ((":v", v) ∈ (buildUpdate r).2 ↔ r.votes = some v))
    ∧ (∀ v, ((":ttl", v) ∈ (buildUpdate r).2 ↔ r.ttl = some v))
    ∧ (applyUpdate (buildUpdate r).2 p).content = r.content.getD p.content
    ∧ (applyUpdate (buildUpdate r).2 p).timestamp = r.timestamp.getD p.timestamp
    ∧ (applyUpdate (buildUpdate r).2 p).votes = r.votes.getD p.votes
    ∧ (applyUpdate (buildUpdate r).2 p).ttl = r.ttl.getD p.ttl := by
  obtain ⟨c, t, v, tl⟩ := r
  cases c <;> cases t <;> cases v <;> cases tl <;>
    simp [buildUpdate, applyUpdate, applyAttr, eq_comm]

/-- C7: a GET with no query parameters over a table of records with
integer, pairwise distinct timestamps answers 200 with the full table
sorted strictly descending by timestamp. -/
theorem get_all_sorted (now : Int) (db : DB) (hf : db.fault = none)
    (hnum : ∀ p ∈ db.items, ∃ t : Int, p.timestamp = JVal.num (.int t))
    (hdist : db.items.Pairwise (fun p q => p.timestamp ≠ q.timestamp)) :
    handler now { httpMethod := "GET" } db
      = .ok ({ statusCode := 200, headers := [],
               body := some (postsToJSON (sortByTimestampDesc db.items)) }, db)
    ∧ (sortByTimestampDesc db.items).Perm db.items
    ∧ (sortByTimestampDesc db.items).Pairwise (fun a b => tsI b < tsI a) := by
  have hperm := sortByTimestampDesc_perm db.items
  have hint : ∀ p ∈ db.items, intTs p := by
    intro p hp
    obtain ⟨t, ht⟩ := hnum p hp
    exact ⟨t, by rw [ht]; rfl⟩
  refine ⟨?_, hperm, ?_⟩
  · simp [handler, dispatch, handleGet, listAllMode, dynamoScan, hf]
  · have h1 := sortByTimestampDesc_pairwise hint
    have h2 : (sortByTimestampDesc db.items).Pairwise
        (fun p q => p.timestamp ≠ q.timestamp) :=
      (hperm.pairwise_iff (fun h => Ne.symm h)).mpr hdist
    refine (h1.and h2).imp_of_mem ?_
    intro a b ha hb hab
    obtain ⟨ta, hta⟩ := hnum a (hperm.mem_iff.mp ha)
    obtain ⟨tb, htb⟩ := hnum b (hperm.mem_iff.mp hb)
    rcases hab with ⟨hle, hne⟩
    have : ta ≠ tb := by
      intro hEq
      exact hne (by rw [hta, htb, hEq])
    have hta2 : tsI a = ta := by simp [tsI, hta, JVal.toNum, toIntOrZero]
    have htb2 : tsI b = tb := by simp [tsI, htb, JVal.toNum, toIntOrZero]
    rw [hta2, htb2] at hle ⊢
    omega

/-- C2: a GET in before mode (truthy before parameter, latest not
truthy) with a nonnegative integral count answers 513 with a body naming
the missing id when no record's id strictly equals the coerced
parameter, and otherwise 200 with exactly the count records after the
located record in the descending-by-timestamp ordering; the anchor is
locatable in the sorted list exactly when some stored record matches. -/
theorem get_before_paginates (now : Int) (db : DB) (q : QueryParams) (bs : String) (c : Nat)
    (hf : db.fault = none)
    (hlatest : truthy q.latest = false)
    (hbefore : q.before = some bs) (hbs : bs ≠ "")
    (hcount : countNum q = .int (c : Int)) :
    ((∀ p ∈ db.items, jsStrictEqNum p.id (parseNumber bs) = false) →
      handler now { httpMethod := "GET", queryStringParameters := some q } db
        = .ok ({ statusCode := 513, headers := [],
                 body := some (jsonError ("No item found by id " ++ bs)) }, db))
    ∧ (∀ i, (sortByTimestampDesc db.items).findIdx?
          (fun item => jsStrictEqNum item.id (parseNumber bs)) = some i →
      handler now { httpMethod := "GET", queryStringParameters := some q } db
        = .ok ({ statusCode := 200, headers := [],
                 body := some (postsToJSON
                   (((sortByTimestampDesc db.items).drop (i + 1)).take c)) }, db))
    ∧ ((((sortByTimestampDesc db.items).findIdx?
          (fun item => jsStrictEqNum item.id (parseNumber bs))).isSome = true)
        ↔ ∃ p ∈ db.items, jsStrictEqNum p.id (parseNumber bs) = true) := by
  have hperm := sortByTimestampDesc_perm db.items
  have htr : truthy (some bs) = true := by
    simp [truthy, hbs]
  refine ⟨?_, ?_, ?_⟩
  · intro hmiss
    have hnone : (sortByTimestampDesc db.items).findIdx?
        (fun item => jsStrictEqNum item.id (parseNumber bs)) = none :=
      List.findIdx?_eq_none_iff.mpr (fun x hx => hmiss x (hperm.mem_iff.mp hx))
    simp [handler, dispatch, handleGet, hlatest, beforeMode, dynamoScan, hf,
          hbefore, hnone, htr]
  · intro i hi
    simp only [handler, dispatch, handleGet, hlatest, beforeMode, dynamoScan, hf,
               hbefore, Option.getD_some, hi]
    have hadd : JSNum.add (.int ((i + 1 : Nat) : Int)) (countNum q)
        = .int (((i + 1 : Nat) : Int) + (c : Int)) := by
      rw [hcount]
      rfl
    rw [hadd, jsSlice_int]
    simp [htr]
  · rw [List.findIdx?_isSome]
    simp only [List.any_eq_true]
    constructor
    · rintro ⟨x, hx, hpx⟩
      exact ⟨x, hperm.mem_iff.mp hx, hpx⟩
    · rintro ⟨x, hx, hpx⟩
      exact ⟨x, hperm.mem_iff.mpr hx, hpx⟩

/-- The four GET modes of the handler. -/
inductive GetMode where
  | latest
  | before
  | byId
  | listAll
deriving DecidableEq

/-- Modelled from the spec (amended): the GET mode is selected by which
query parameter is present with a truthy (non-empty) value, checked in
precedence order latest, before, id, with list-all otherwise. -/
def selectGetMode : Option QueryParams → GetMode
  | none => .listAll
  | some q =>
    if truthy q.latest then .latest
    else if truthy q.before then .before
    else if truthy q.id then .byId
    else .listAll

/-- Runs one GET mode on the query parameters and table. -/
def runGetMode : GetMode → Option QueryParams → DB → Except JSError (Response × DB)
  | .latest, qsp, db => latestMode (qsp.getD {}) db
  | .before, qsp, db => beforeMode (qsp.getD {}) db
  | .byId, qsp, db => byIdMode (qsp.getD {}) db
  | .listAll, _, db => listAllMode db

/-- C8 (amended): every GET request executes exactly the one mode chosen
by truthy-value presence of the query parameters in precedence order
latest, before, id, list-all; presence with an empty value does not
select a mode. -/
theorem get_mode_selection (ev : Event) (db : DB) (now : Int) (hm : ev.httpMethod = "GET") :
    dispatch now ev db
      = runGetMode (selectGetMode ev.queryStringParameters) ev.queryStringParameters db := by
  simp only [dispatch, hm]
  cases hq : ev.queryStringParameters with
  | none => simp [handleGet, hq, selectGetMode, runGetMode]
  | some q =>
    by_cases h1 : truthy q.latest
    · simp [handleGet, hq, selectGetMode, runGetMode, h1]
    · by_cases h2 : truthy q.before
      · simp [handleGet, hq, selectGetMode, runGetMode, h1, h2]
      · by_cases h3 : truthy q.id <;>
          simp [handleGet, hq, selectGetMode, runGetMode, h1, h2, h3]

/-- The C8 counterexample query: latest is present but empty, before is
present with a value. -/
def qC8 : QueryParams := { latest := some "", before := some "5" }

/-- Counterexample for C8 as frozen: with latest present (empty string)
and before=5 over an empty table, the handler answers 513 (before mode),
while the latest mode it allegedly must run answers 200. -/
theorem get_mode_presence_counterexample :
    handler 0 { httpMethod := "GET", queryStringParameters := some qC8 } ⟨[], none⟩
      = .ok ({ statusCode := 513, headers := [],
               body := some (jsonError "No item found by id 5") }, ⟨[], none⟩)
    ∧ runGetMode .latest (some qC8) ⟨[], none⟩
        = .ok ({ statusCode := 200, headers := [], body := some (postsToJSON []) }, ⟨[], none⟩) := by
  constructor
  · rfl
  · rfl

/-- Witness for the amended C8 at the counterexample input. -/
theorem get_mode_selection_witness :
    dispatch 0 { httpMethod := "GET", queryStringParameters := some qC8 } ⟨[], none⟩
      = runGetMode (selectGetMode (some qC8)) (some qC8) ⟨[], none⟩ :=
  get_mode_selection { httpMethod := "GET", queryStringParameters := some qC8 } ⟨[], none⟩ 0 rfl

/-- C10: when the count parameter is present but its numeric coercion is
NaN, a GET in latest mode, and likewise in before mode with a located
anchor, answers 200 with the empty list rather than the default count of
one. -/
theorem count_nan_empty (now : Int) (db : DB) (q : QueryParams) (s : String)
    (hf : db.fault = none) (hc : q.count = some s) (hnan : parseNumber s = .nan) :
    ((truthy q.latest = true) →
      handler now { httpMethod := "GET", queryStringParameters := some q } db
        = .ok ({ statusCode := 200, headers := [], body := some (postsToJSON []) }, db))
    ∧ (∀ i, truthy q.latest = false → truthy q.before = true →
        (sortByTimestampDesc db.items).findIdx?
          (fun item => jsStrictEqNum item.id (parseNumber (q.before.getD ""))) = some i →
      handler now { httpMethod := "GET", queryStringParameters := some q } db
        = .ok ({ statusCode := 200, headers := [], body := some (postsToJSON []) }, db)) := by
  have hcnt : countNum q = .nan := by
    simp [countNum, hc, hnan]
  constructor
  · intro hl
    simp [handler, dispatch, handleGet, hl, latestMode, dynamoScan, hf, hcnt, jsSlice_nan]
  · intro i hl hb hi
    have hadd : JSNum.add (.int ((i : Int) + 1)) (countNum q) = .nan := by
      rw [hcnt]
      rfl
    simp [handler, dispatch, handleGet, hl, hb, beforeMode, dynamoScan, hf, hi, hadd,
          jsSlice_nan]

/-- A concrete stored record with timestamp 300. -/
def pW1 : Post := ⟨.num (.int 1), .str "A", .num (.int 300), .num (.int 0), .num (.int 9)⟩

/-- A concrete stored record with timestamp 200. -/
def pW2 : Post := ⟨.num (.int 2), .str "B", .num (.int 200), .num (.int 0), .num (.int 9)⟩

/-- A concrete stored record with timestamp 100. -/
def pW3 : Post := ⟨.num (.int 3), .str "C", .num (.int 100), .num (.int 0), .num (.int 9)⟩

/-- A concrete table holding the three records out of timestamp order. -/
def dbW : DB := ⟨[pW3, pW1, pW2], none⟩

/-- The C2 witness query: before the record with id 1, count 2. -/
def qW2 : QueryParams := { before := some "1", count := some "2" }

/-- Witness for C2, the P3 scenario: before=idA with count=2 over
records of timestamps 300, 200, 100 returns the latter two records. -/
theorem get_before_paginates_witness :
    handler 0 { httpMethod := "GET", queryStringParameters := some qW2 } dbW
      = .ok ({ statusCode := 200, headers := [],
               body := some (postsToJSON [pW2, pW3]) }, dbW) := by
  have h := (get_before_paginates 0 dbW qW2 "1" 2 rfl rfl rfl (by decide) (by decide)).2.1 0
    (by decide)
  rw [h]
  rfl

/-- Witness for C7 over the concrete three-record table. -/
theorem get_all_sorted_witness :
    handler 0 { httpMethod := "GET" } dbW
      = .ok ({ statusCode := 200, headers := [],
               body := some (postsToJSON (sortByTimestampDesc dbW.items)) }, dbW)
    ∧ (sortByTimestampDesc dbW.items).Perm dbW.items
    ∧ (sortByTimestampDesc dbW.items).Pairwise (fun a b => tsI b < tsI a) :=
  get_all_sorted 0 dbW rfl
    (by
      intro p hp
      simp only [dbW, List.mem_cons, List.not_mem_nil, or_false] at hp
      rcases hp with rfl | rfl | rfl
      · exact ⟨100, rfl⟩
      · exact ⟨300, rfl⟩
      · exact ⟨200, rfl⟩)
    (by decide)

/-- The C10 witness query for latest mode with a non-numeric count. -/
def qW10a : QueryParams := { latest := some "1", count := some "abc" }

/-- The C10 witness query for before mode with a non-numeric count. -/
def qW10b : QueryParams := { before := some "1", count := some "abc" }

/-- Witness for C10: count=abc yields the empty list in both latest mode
and before mode with a found anchor. -/
theorem count_nan_empty_witness :
    handler 0 { httpMethod := "GET", queryStringParameters := some qW10a } dbW
      = .ok ({ statusCode := 200, headers := [], body := some (postsToJSON []) }, dbW)
    ∧ handler 0 { httpMethod := "GET", queryStringParameters := some qW10b } dbW
      = .ok ({ statusCode := 200, headers := [], body := some (postsToJSON []) }, dbW) :=
  ⟨(count_nan_empty 0 dbW qW10a "abc" rfl rfl (by decide)).1 rfl,
   (count_nan_empty 0 dbW qW10b "abc" rfl rfl (by decide)).2 0 rfl rfl (by decide)⟩

end CloudPosts

namespace CloudPosts

theorem applyAttr_id (p : Post) (kv : String × JVal) : (applyAttr p kv).id = p.id := by
  rcases kv with ⟨k, v⟩
  simp only [applyAttr]
  split_ifs <;> rfl

theorem applyUpdate_id (vals : List (String × JVal)) (p : Post) :
    (applyUpdate vals p).id = p.id := by
  induction vals generalizing p with
  | nil => rfl
  | cons kv rest ih =>
    simp only [applyUpdate, List.foldl_cons] at *
    exact (ih (applyAttr p kv)).trans (applyAttr_id p kv)

theorem ok_fst {x : Except JSError (Response × DB)} {R r : Response} {db2 : DB}
    (he : x.map Prod.fst = .ok R) (h : x = .ok (r, db2)) : r = R := by
  rw [h] at he
  simp only [Except.map] at he
  exact Except.ok.inj he

theorem latestMode_body {q : QueryParams} {db : DB} {r : Response} {db2 : DB}
    (h : latestMode q db = .ok (r, db2)) : r.body.isSome = true := by
  cases hfa : db.fault with
  | some e =>
    rw [show latestMode q db = .error e from by simp [latestMode, dynamoScan, hfa]] at h
    exact absurd h (by simp)
  | none =>
    have he : (latestMode q db).map Prod.fst
        = .ok { statusCode := 200,
                body := some (postsToJSON
                  (jsSlice (sortByTimestampDesc db.items) 0 (countNum q))) } := by
      simp [latestMode, dynamoScan, hfa, Except.map]
    rw [ok_fst he h]
    rfl

theorem listAllMode_body {db : DB} {r : Response} {db2 : DB}
    (h : listAllMode db = .ok (r, db2)) : r.body.isSome = true := by
  cases hfa : db.fault with
  | some e =>
    rw [show listAllMode db = .error e from by simp [listAllMode, dynamoScan, hfa]] at h
    exact absurd h (by simp)
  | none =>
    have he : (listAllMode db).map Prod.fst
        = .ok { statusCode := 200,
                body := some (postsToJSON (sortByTimestampDesc db.items)) } := by
      simp [listAllMode, dynamoScan, hfa, Except.map]
    rw [ok_fst he h]
    rfl

theorem beforeMode_body {q : QueryParams} {db : DB} {r : Response} {db2 : DB}
    (h : beforeMode q db = .ok (r, db2)) : r.body.isSome = true := by
  cases hfa : db.fault with
  | some e =>
    rw [show beforeMode q db = .error e from by simp [beforeMode, dynamoScan, hfa]] at h
    exact absurd h (by simp)
  | none =>
    cases hidx : (sortByTimestampDesc db.items).findIdx?
        (fun item => jsStrictEqNum item.id (parseNumber (q.before.getD ""))) with
    | none =>
      have he : (beforeMode q db).map Prod.fst
          = .ok { statusCode := 513,
                  body := some (jsonError ("No item found by id " ++ q.before.getD "")) } := by
        simp [beforeMode, dynamoScan, hfa, hidx, Except.map]
      rw [ok_fst he h]
      rfl
    | some i =>
      have he : (beforeMode q db).map Prod.fst
          = .ok { statusCode := 200,
                  body := some (postsToJSON
                    (jsSlice (sortByTimestampDesc db.items) (i + 1)
                      (JSNum.add (.int ((i : Int) + 1)) (countNum q)))) } := by
        simp [beforeMode, dynamoScan, hfa, hidx, Except.map]
      rw [ok_fst he h]
      rfl

theorem byIdMode_body {q : QueryParams} {db : DB} {r : Response} {db2 : DB}
    (h : byIdMode q db = .ok (r, db2)) :
    r.body.isSome = true
    ∨ (db.fault = none
        ∧ db.items.find? (fun p => jsStrictEqNum p.id (parseNumber (q.id.getD ""))) = none) := by
  cases hfa : db.fault with
  | some e =>
    rw [show byIdMode q db = .error e from by simp [byIdMode, dynamoGet, hfa]] at h
    exact absurd h (by simp)
  | none =>
    have he : (byIdMode q db).map Prod.fst
        = .ok { statusCode := 200,
                body := (db.items.find?
                  (fun p => jsStrictEqNum p.id (parseNumber (q.id.getD "")))).map postToJSON } := by
      simp [byIdMode, dynamoGet, hfa, Except.map]
    rw [ok_fst he h]
    cases hfind : db.items.find? (fun p => jsStrictEqNum p.id (parseNumber (q.id.getD ""))) with
    | none => exact Or.inr ⟨rfl, rfl⟩
    | some x =>
      left
      simp [hfind]

theorem handleGet_body {ev : Event} {db : DB} {r : Response} {db2 : DB}
    (h : handleGet ev db = .ok (r, db2)) :
    r.body.isSome = true
    ∨ (db.fault = none
        ∧ ∃ q, ev.queryStringParameters = some q
          ∧ truthy q.latest = false ∧ truthy q.before = false ∧ truthy q.id = true
          ∧ db.items.find? (fun p => jsStrictEqNum p.id (parseNumber (q.id.getD ""))) = none) := by
  cases hq : ev.queryStringParameters with
  | none =>
    rw [show handleGet ev db = listAllMode db from by simp [handleGet, hq]] at h
    exact Or.inl (listAllMode_body h)
  | some q =>
    by_cases h1 : truthy q.latest = true
    · rw [show handleGet ev db = latestMode q db from by simp [handleGet, hq, h1]] at h
      exact Or.inl (latestMode_body h)
    · have h1f : truthy q.latest = false := by simpa using h1
      by_cases h2 : truthy q.before = true
      · rw [show handleGet ev db = beforeMode q db from by simp [handleGet, hq, h1f, h2]] at h
        exact Or.inl (beforeMode_body h)
      · have h2f : truthy q.before = false := by simpa using h2
        by_cases h3 : truthy q.id = true
        · rw [show handleGet ev db = byIdMode q db from by
            simp [handleGet, hq, h1f, h2f, h3]] at h
          rcases byIdMode_body h with hb | ⟨hfa, hfind⟩
          · exact Or.inl hb
          · exact Or.inr ⟨hfa, q, rfl, h1f, h2f, h3, hfind⟩
        · have h3f : truthy q.id = false := by simpa using h3
          rw [show handleGet ev db = listAllMode db from by
            simp [handleGet, hq, h1f, h2f, h3f]] at h
          exact Or.inl (listAllMode_body h)

theorem handlePut_body {now : Int} {ev : Event} {db : DB} {r : Response} {db2 : DB}
    (h : handlePut now ev db = .ok (r, db2)) : r.body.isSome = true := by
  cases hb : ev.body with
  | error e =>
    rw [show handlePut now ev db = .error e from by simp [handlePut, hb]] at h
    exact absurd h (by simp)
  | ok rj =>
    cases hfa : db.fault with
    | some e =>
      rw [show handlePut now ev db = .error e from by
        simp [handlePut, hb, dynamoPut, hfa]] at h
      exact absurd h (by simp)
    | none =>
      have hfind := find?_after_put db.items (newPostOf now rj) now rfl
      have he : (handlePut now ev db).map Prod.fst
          = .ok { statusCode := 200, body := some (postToJSON (newPostOf now rj)) } := by
        simp only [handlePut, hb, dynamoPut, hfa, dynamoGet]
        rw [hfind]
        rfl
      rw [ok_fst he h]
      rfl

theorem handleDelete_body {ev : Event} {db : DB} {r : Response} {db2 : DB}
    (h : handleDelete ev db = .ok (r, db2)) : r.body.isSome = true := by
  cases hq : ev.queryStringParameters with
  | none =>
    have he : (handleDelete ev db).map Prod.fst
        = .ok { statusCode := 400, body := some (jsonError "Missing post ID") } := by
      simp [handleDelete, hq, Except.map]
    rw [ok_fst he h]
    rfl
  | some q =>
    by_cases h1 : truthy q.id = true
    · cases hfa : db.fault with
      | some e =>
        rw [show handleDelete ev db = .error e from by
          simp [handleDelete, hq, h1, dynamoDelete, hfa]] at h
        exact absurd h (by simp)
      | none =>
        have he : (handleDelete ev db).map Prod.fst
            = .ok { statusCode := 200, body := some successBody } := by
          simp [handleDelete, hq, h1, dynamoDelete, hfa, Except.map]
        rw [ok_fst he h]
        rfl
    · have h1f : truthy q.id = false := by simpa using h1
      have he : (handleDelete ev db).map Prod.fst
          = .ok { statusCode := 400, body := some (jsonError "Missing post ID") } := by
        simp [handleDelete, hq, h1f, Except.map]
      rw [ok_fst he h]
      rfl

theorem handleOptions_body {ev : Event} {db : DB} {r : Response} {db2 : DB}
    (h : handleOptions ev db = .ok (r, db2)) : r.body.isSome = true := by
  have he : (handleOptions ev db).map Prod.fst
      = .ok { statusCode := 200,
              headers := [("Access-Control-Allow-Origin", "*"),
                          ("Access-Control-Allow-Methods", "GET,PUT,PATCH,DELETE,OPTIONS")],
              body := some successBody } := rfl
  rw [ok_fst he h]
  rfl

theorem handlePatch_body {ev : Event} {db : DB} {r : Response} {db2 : DB}
    (h : handlePatch ev db = .ok (r, db2)) :
    r.body.isSome = true
    ∨ (db.fault = none
        ∧ ∃ q rb, ev.queryStringParameters = some q
          ∧ truthy q.id = true ∧ ev.body = .ok rb ∧ (buildUpdate rb).1 ≠ "set"
          ∧ db.items.find? (fun p => jsStrictEqNum p.id (parseNumber (q.id.getD ""))) = none) := by
  cases hq : ev.queryStringParameters with
  | none =>
    have he : (handlePatch ev db).map Prod.fst
        = .ok { statusCode := 400, body := some (jsonError "Missing post ID") } := by
      simp [handlePatch, hq, Except.map]
    rw [ok_fst he h]
    exact Or.inl rfl
  | some q =>
    by_cases h1 : truthy q.id = true
    · cases hb : ev.body with
      | error e =>
        rw [show handlePatch ev db = .error e from by simp [handlePatch, hq, h1, hb]] at h
        exact absurd h (by simp)
      | ok rb =>
        by_cases h2 : (buildUpdate rb).1 = "set"
        · have he : (handlePatch ev db).map Prod.fst
              = .ok { statusCode := 400, body := some (jsonError "No fields to update") } := by
            simp [handlePatch, hq, h1, hb, h2, Except.map]
          rw [ok_fst he h]
          exact Or.inl rfl
        · cases hfa : db.fault with
          | some e =>
            rw [show handlePatch ev db = .error e from by
              simp [handlePatch, hq, h1, hb, h2, dynamoUpdate, hfa]] at h
            exact absurd h (by simp)
          | none =>
            cases hfind : db.items.find?
                (fun p => jsStrictEqNum p.id (parseNumber (q.id.getD ""))) with
            | none =>
              have he : (handlePatch ev db).map Prod.fst
                  = .ok { statusCode := 200, body := none } := by
                simp [handlePatch, hq, h1, hb, h2, dynamoUpdate, hfa, hfind, Except.map]
              rw [ok_fst he h]
              exact Or.inr ⟨rfl, q, rb, rfl, h1, rfl, h2, hfind⟩
            | some x =>
              have hco : ((fun p => jsStrictEqNum p.id (parseNumber (q.id.getD "")))
                    ∘ (fun p => if jsStrictEqNum p.id (parseNumber (q.id.getD "")) = true
                        then applyUpdate (buildUpdate rb).2 p else p))
                  = fun p => jsStrictEqNum p.id (parseNumber (q.id.getD "")) := by
                funext p
                simp only [Function.comp, jsStrictEqNum]
                by_cases hp : jsStrictEq p.id (JVal.num (parseNumber (q.id.getD ""))) = true
                · rw [if_pos hp, applyUpdate_id]
                · rw [if_neg hp]
              have hmap : (db.items.map
                    (fun p => if jsStrictEqNum p.id (parseNumber (q.id.getD "")) = true
                        then applyUpdate (buildUpdate rb).2 p else p)).find?
                  (fun p => jsStrictEqNum p.id (parseNumber (q.id.getD "")))
                  = some (if jsStrictEqNum x.id (parseNumber (q.id.getD "")) = true
                      then applyUpdate (buildUpdate rb).2 x else x) := by
                rw [List.find?_map, hco, hfind]
                rfl
              have he : (handlePatch ev db).map Prod.fst
                  = .ok { statusCode := 200,
                          body := some (postToJSON
                            (if jsStrictEqNum x.id (parseNumber (q.id.getD "")) = true
                              then applyUpdate (buildUpdate rb).2 x else x)) } := by
                simp only [handlePatch, hq, h1, hb, h2, dynamoUpdate, hfa, hfind]
                simp [hmap, Except.map]
              rw [ok_fst he h]
              exact Or.inl rfl
    · have h1f : truthy q.id = false := by simpa using h1
      have he : (handlePatch ev db).map Prod.fst
          = .ok { statusCode := 400, body := some (jsonError "Missing post ID") } := by
        simp [handlePatch, hq, h1f, Except.map]
      rw [ok_fst he h]
      exact Or.inl rfl

end CloudPosts

namespace CloudPosts

/-- The one handler path that serializes undefined: a GET in by-id mode
whose record is absent from the table. -/
def getByIdMiss (ev : Event) (db : DB) : Prop :=
  ev.httpMethod = "GET" ∧ db.fault = none
    ∧ ∃ q, ev.queryStringParameters = some q
      ∧ truthy q.latest = false ∧ truthy q.before = false ∧ truthy q.id = true
      ∧ db.items.find? (fun p => jsStrictEqNum p.id (parseNumber (q.id.getD ""))) = none

/-- The other undefined-serializing path: a PATCH whose storage update
returns no record (absent key in the modelled store). -/
def patchNoRecord (ev : Event) (db : DB) : Prop :=
  ev.httpMethod = "PATCH" ∧ db.fault = none
    ∧ ∃ q rb, ev.queryStringParameters = some q ∧ truthy q.id = true
      ∧ ev.body = .ok rb ∧ (buildUpdate rb).1 ≠ "set"
      ∧ db.items.find? (fun p => jsStrictEqNum p.id (parseNumber (q.id.getD ""))) = none

/-- The response of a fulfilled invocation is the response the
dispatched operation fulfilled with. -/
theorem handler_ok_resp {now : Int} {ev : Event} {db : DB} {r0 : Response} {db0 : DB}
    (hd : dispatch now ev db = .ok (r0, db0)) :
    ∀ r db2, handler now ev db = .ok (r, db2) → r = r0 := by
  intro r db2 h
  unfold handler at h
  rw [hd] at h
  injection h with h1
  exact (Prod.mk.injEq .. |>.mp h1).1.symm

/-- C9 (amended): every response body of a fulfilled invocation is a
JSON string, except the two paths that serialize an absent record, where
the body is undefined: a GET in by-id mode whose record is missing, and
a PATCH whose storage update returned no record. -/
theorem response_body_serialized (now : Int) (ev : Event) (db : DB) :
    (∀ r db2, handler now ev db = .ok (r, db2) → r.body.isSome = true)
    ∨ getByIdMiss ev db ∨ patchNoRecord ev db := by
  cases hd : dispatch now ev db with
  | error e =>
    left
    intro r db2 h
    unfold handler at h
    rw [hd] at h
    exact Except.noConfusion h
  | ok pr =>
    obtain ⟨r0, db0⟩ := pr
    have hd2 := hd
    unfold dispatch at hd2
    split at hd2
    · rename_i heq
      rcases handleGet_body hd2 with hb | ⟨hfa, q, hq, hl, hbf, hid, hfind⟩
      · left
        intro r db2 h
        rw [handler_ok_resp hd r db2 h]
        exact hb
      · exact Or.inr (Or.inl ⟨heq, hfa, q, hq, hl, hbf, hid, hfind⟩)
    · rename_i heq
      left
      intro r db2 h
      rw [handler_ok_resp hd r db2 h]
      exact handlePut_body hd2
    · rename_i heq
      rcases handlePatch_body hd2 with hb | ⟨hfa, q, rb, hq, hid, hbody, hset, hfind⟩
      · left
        intro r db2 h
        rw [handler_ok_resp hd r db2 h]
        exact hb
      · exact Or.inr (Or.inr ⟨heq, hfa, q, rb, hq, hid, hbody, hset, hfind⟩)
    · rename_i heq
      left
      intro r db2 h
      rw [handler_ok_resp hd r db2 h]
      exact handleDelete_body hd2
    · rename_i heq
      left
      intro r db2 h
      rw [handler_ok_resp hd r db2 h]
      exact handleOptions_body hd2
    · left
      intro r db2 h
      rw [handler_ok_resp hd r db2 h]
      injection hd2 with h1
      obtain ⟨h2, h3⟩ := Prod.mk.injEq .. |>.mp h1
      rw [← h2]
      rfl

/-- The C9 counterexample query: the claim's own GET-by-id instance. -/
def qC9 : QueryParams := { id := some "5" }

/-- Counterexample for C9 as frozen: a GET with id=5 over an empty table
fulfills with status 200 and body undefined, not a JSON-encoded string. -/
theorem get_by_id_missing_body_counterexample :
    handler 0 { httpMethod := "GET", queryStringParameters := some qC9 } ⟨[], none⟩
      = .ok ({ statusCode := 200, headers := [], body := none }, ⟨[], none⟩) := rfl

end CloudPosts
